import Mathlib

/-!
Shallow embedding of `jupyterhub/apihandlers/users.py` (user API handlers):
the user data model, JSON payload validation, the `admin_only` /
`admin_or_self` authorization gates, and the request handlers for
GetUser, CreateUser (post), DeleteUser, UpdateUser (patch),
SpawnServer (server post), StopServer (server delete) and
GrantAdminAccess (admin-access post).

External collaborators (Spawner, Authenticator, the spawn/stop helpers of
the base handler) are modelled as an explicit environment of effect
functions; the relational store is a list of user records, with added
objects immediately visible to queries (session semantics).
-/

namespace JHub

/-- Lifecycle-relevant server state of one user: the spawner handle's
presence (`user.spawner` being non-None / truthy), the two pending flags
and the `running` flag, as read by the handlers. -/
structure ServerState where
  hasSpawner : Bool
  spawnPending : Bool
  stopPending : Bool
  running : Bool
deriving DecidableEq, Repr

/-- A user record as the handlers read and mutate it: `name`, `admin`,
and the server lifecycle state.  (`last_activity` and the server URL only
feed the rendered JSON model and are not needed for the claims.) -/
structure UserRecord where
  name : String
  admin : Bool
  server : ServerState
deriving DecidableEq, Repr

/-- The authenticated caller, as returned by `get_current_user()`:
its name and admin flag are all the gates and handlers consult. -/
structure Caller where
  name : String
  admin : Bool
deriving DecidableEq, Repr

/-- JSON values, for request payloads (`get_json_body()` results). -/
inductive JValue where
  | null : JValue
  | bool (b : Bool) : JValue
  | str (s : String) : JValue
  | num (n : Int) : JValue
  | arr (xs : List JValue) : JValue
  | obj (fields : List (String × JValue)) : JValue
deriving Repr

/-- The error outcomes the handlers raise via `web.HTTPError`, one
constructor per distinct raise site / message. -/
inductive ApiError where
  | forbidden
  | notFound
  | invalidPayload
  | invalidKeys
  | typeMismatch (key : String)
  | userExists
  | alreadyRunning
  | selfDeletion
  | serverBusy
  | notRunning
  | provisioningFailed
  | adminAccessDisabled
deriving DecidableEq, Repr

/-- HTTP status code of each error, from the `web.HTTPError(code, ...)`
call that raises it in the source. -/
def statusOf : ApiError → Nat
  | .forbidden => 403
  | .notFound => 404
  | .adminAccessDisabled => 403
  | _ => 400

/-- Result of one handler invocation: the HTTP outcome (success status or
error), the store after the request, and observable collaborator effects
(whether `spawner.poll()` was called, how many stop / spawn requests were
issued to the spawner helpers, whether the server cookie was set). -/
structure HResult where
  result : Except ApiError Nat
  store : List UserRecord
  polled : Bool
  stopCalls : Nat
  spawnCalls : Nat
  cookieSet : Bool
deriving Repr

/-- Environment of external collaborator behaviour for one request:
the user's server state after `stop_single_user` / `spawn_single_user`
return, the `spawner.poll()` result (none = process alive, some code =
exited), and whether `authenticator.add_user` succeeds. -/
structure Env where
  stopUser : UserRecord → ServerState
  spawnUser : UserRecord → ServerState
  poll : UserRecord → Option Int
  authAddOk : Bool

/-- Embedding of `self.find_user(name)`: first record with that name. -/
def findUser (store : List UserRecord) (name : String) : Option UserRecord :=
  store.find? (fun r => r.name = name)

/-- Replace (in place) the first record with the given name — the store
object mutated by `setattr` / helpers under session semantics. -/
def replaceFirst : List UserRecord → String → UserRecord → List UserRecord
  | [], _, _ => []
  | r :: rs, n, u => if r.name = n then u :: rs else r :: replaceFirst rs n u

/-- Remove the first record with the given name: `db.delete(user)`. -/
def removeFirst : List UserRecord → String → List UserRecord
  | [], _ => []
  | r :: rs, n => if r.name = n then rs else r :: removeFirst rs n

/-- Allowed payload keys, the key set of `_model_types`. -/
def allowedKey (k : String) : Bool := k = "name" || k = "admin"

/-- Per-field `isinstance(value, self._model_types[key])` check:
`name` must be a string, `admin` a boolean. -/
def fieldTypeOk (kv : String × JValue) : Bool :=
  if kv.1 = "name" then
    match kv.2 with
    | .str _ => true
    | _ => false
  else if kv.1 = "admin" then
    match kv.2 with
    | .bool _ => true
    | _ => false
  else false

/-- Embedding of `_check_user_model`: payload must be a dict, its keys a
subset of `{name, admin}`, and each value of its declared type; errors in
that order, the type error reported at the first offending field. -/
def checkUserModel : JValue → Except ApiError Unit
  | .obj fields =>
    if fields.all (fun kv => allowedKey kv.1) then
      match fields.find? (fun kv => !fieldTypeOk kv) with
      | some kv => .error (.typeMismatch kv.1)
      | none => .ok ()
    else .error .invalidKeys
  | _ => .error .invalidPayload

/-- The body may be absent (`get_json_body()` returns None): None is not
a dict, so `_check_user_model(None)` is the invalid-payload error. -/
def checkUserModelOpt : Option JValue → Except ApiError Unit
  | none => .error .invalidPayload
  | some v => checkUserModel v

/-- Python truthiness of the parsed body, for `if data:`. -/
def jTruthy : JValue → Bool
  | .null => false
  | .bool b => b
  | .str s => !s.isEmpty
  | .num n => n != 0
  | .arr xs => !xs.isEmpty
  | .obj fs => !fs.isEmpty

/-- Truthiness of an optional body: None is falsy. -/
def dataTruthy : Option JValue → Bool
  | none => false
  | some v => jTruthy v

/-- Field lookup in a JSON object (`data[key]`, `key in data`). -/
def objGet (v : JValue) (k : String) : Option JValue :=
  match v with
  | .obj fs => (fs.find? (fun kv => kv.1 = k)).map (fun kv => kv.2)
  | _ => none

/-- Membership test `key in data`. -/
def hasKey (v : JValue) (k : String) : Bool := (objGet v k).isSome

/-- An error result that leaves the store as given and performs no
collaborator effect. -/
def HResult.err (e : ApiError) (store : List UserRecord) : HResult :=
  ⟨.error e, store, false, 0, 0, false⟩

/-- Modelled from the spec: the `admin_only` decorator (from `..utils`,
outside this file).  §4.1: `mode = AdminOnly` is allowed iff
`caller.isAdmin`, otherwise `Deny(Forbidden)`; no caller (unauthenticated)
always yields `Deny(Forbidden)`. -/
def adminOnly (caller : Option Caller) (store : List UserRecord)
    (body : Caller → HResult) : HResult :=
  match caller with
  | none => .err .forbidden store
  | some c => if c.admin then body c else .err .forbidden store

/-- Embedding of the `admin_or_self` decorator: 403 when unauthenticated,
403 when the caller is neither the target user nor an admin, 404 when the
target name resolves to no record, otherwise the wrapped method runs on
the resolved user. -/
def adminOrSelf (caller : Option Caller) (name : String)
    (store : List UserRecord) (body : UserRecord → HResult) : HResult :=
  match caller with
  | none => .err .forbidden store
  | some c =>
    if !(c.name = name || c.admin) then .err .forbidden store
    else
      match findUser store name with
      | none => .err .notFound store
      | some u => body u

/-- A just-created user record: default privilege `admin = false`, no
server (§3: the initial state on account creation is NoServer). -/
def freshUser (name : String) : UserRecord :=
  ⟨name, false, ⟨false, false, false, false⟩⟩

/-- Modelled from the spec: `user_from_username` (in the base handler,
outside this file).  It resolves the name to the existing record or
creates a fresh one in the store — the record that the spec, under
CreateUser, calls
"the newly created UserRecord" and rolls back on provisioning failure
(and which `delete(user)` in the source removes). -/
def userFromUsername (store : List UserRecord) (name : String) :
    UserRecord × List UserRecord :=
  match findUser store name with
  | some u => (u, store)
  | none => (freshUser name, store ++ [freshUser name])

/-- Body of `UserAPIHandler.get`: render the resolved user, 200. -/
def userGetBody (store : List UserRecord) (_u : UserRecord) : HResult :=
  ⟨.ok 200, store, false, 0, 0, false⟩

/-- Embedding of `UserAPIHandler.get` (GetUser), gated `admin_or_self`. -/
def userGet (caller : Option Caller) (name : String)
    (store : List UserRecord) : HResult :=
  adminOrSelf caller name store (userGetBody store)

/-- Embedding of `UserAPIHandler.post` (CreateUser), gated `admin_only`:
conflict if the name exists; otherwise `user_from_username` creates the
record; a truthy body is then validated and an `admin` field applied and
committed; finally `authenticator.add_user` runs — on any exception the
record is deleted, the deletion committed, and a 400 reported. -/
def userPost (env : Env) (caller : Option Caller) (name : String)
    (data : Option JValue) (store : List UserRecord) : HResult :=
  adminOnly caller store (fun _c =>
    match findUser store name with
    | some _ => .err .userExists store
    | none =>
      let p := userFromUsername store name
      let u := p.1
      let store1 := p.2
      let checked : Except ApiError (UserRecord × List UserRecord) :=
        if dataTruthy data then
          let v := data.getD .null
          match checkUserModel v with
          | .error e => .error e
          | .ok () =>
            if hasKey v "admin" then
              match objGet v "admin" with
              | some (.bool b) =>
                let u' := { u with admin := b }
                .ok (u', replaceFirst store1 name u')
              | _ => .ok (u, store1)
            else .ok (u, store1)
        else .ok (u, store1)
      match checked with
      | .error e => .err e store1
      | .ok (_u2, store2) =>
        if env.authAddOk then
          ⟨.ok 201, store2, false, 0, 0, false⟩
        else
          .err .provisioningFailed (removeFirst store2 name))

/-- Embedding of `UserAPIHandler.delete` (DeleteUser), gated `admin_only`:
404 if absent; self-deletion refused; refuse while stop is pending; with
a spawner handle present, stop synchronously and re-check the pending
flag, refusing if still stopping; otherwise `authenticator.delete_user`
runs, the record is removed and committed, 204. -/
def userDelete (env : Env) (caller : Option Caller) (name : String)
    (store : List UserRecord) : HResult :=
  adminOnly caller store (fun c =>
    match findUser store name with
    | none => .err .notFound store
    | some u =>
      if u.name = c.name then .err .selfDeletion store
      else if u.server.stopPending then .err .serverBusy store
      else if u.server.hasSpawner then
        let u1 := { u with server := env.stopUser u }
        let store1 := replaceFirst store name u1
        if u1.server.stopPending then
          ⟨.error .serverBusy, store1, false, 1, 0, false⟩
        else
          ⟨.ok 204, removeFirst store1 name, false, 1, 0, false⟩
      else
        ⟨.ok 204, removeFirst store name, false, 0, 0, false⟩)

/-- One `setattr(user, key, value)` of the patch loop, on the validated
field types (`name` a string, `admin` a boolean). -/
def applyField (u : UserRecord) (kv : String × JValue) : UserRecord :=
  if kv.1 = "name" then
    match kv.2 with
    | .str s => { u with name := s }
    | _ => u
  else if kv.1 = "admin" then
    match kv.2 with
    | .bool b => { u with admin := b }
    | _ => u
  else u

/-- The patch loop `for key, value in data.items(): setattr(...)`. -/
def applyFields (u : UserRecord) (fs : List (String × JValue)) : UserRecord :=
  fs.foldl applyField u

/-- Fields of the (validated, hence object) payload. -/
def objFields : Option JValue → List (String × JValue)
  | some (.obj fs) => fs
  | _ => []

/-- Embedding of `UserAPIHandler.patch` (UpdateUser), gated `admin_only`:
404 if absent, validate the body, then overwrite every provided field on
the record and commit, 200. -/
def userPatch (caller : Option Caller) (name : String)
    (data : Option JValue) (store : List UserRecord) : HResult :=
  adminOnly caller store (fun _c =>
    match findUser store name with
    | none => .err .notFound store
    | some u =>
      match checkUserModelOpt data with
      | .error e => .err e store
      | .ok () =>
        let u' := applyFields u (objFields data)
        ⟨.ok 200, replaceFirst store name u', false, 0, 0, false⟩)

/-- Body of `UserServerAPIHandler.post`: with a spawner handle, poll it —
a None result (process alive) is "already running"; otherwise spawn and
answer 202 while the spawn is still pending, 201 otherwise. -/
def userServerPostBody (env : Env) (name : String) (store : List UserRecord)
    (u : UserRecord) : HResult :=
  let spawnIt : Bool → HResult := fun polled =>
    let u1 := { u with server := env.spawnUser u }
    let status : Nat := if u1.server.spawnPending then 202 else 201
    ⟨.ok status, replaceFirst store name u1, polled, 0, 1, false⟩
  if u.server.hasSpawner then
    match env.poll u with
    | none => ⟨.error .alreadyRunning, store, true, 0, 0, false⟩
    | some _ => spawnIt true
  else spawnIt false

/-- Embedding of `UserServerAPIHandler.post` (SpawnServer), gated
`admin_or_self`. -/
def userServerPost (env : Env) (caller : Option Caller) (name : String)
    (store : List UserRecord) : HResult :=
  adminOrSelf caller name store (userServerPostBody env name store)

/-- Body of `UserServerAPIHandler.delete`: 202 at once while a stop is
already pending (no poll, no second stop); "not running" when not
running, or when the poll reports the process already exited; otherwise
stop, answering 202 while still pending and 204 when complete. -/
def userServerDeleteBody (env : Env) (name : String)
    (store : List UserRecord) (u : UserRecord) : HResult :=
  if u.server.stopPending then ⟨.ok 202, store, false, 0, 0, false⟩
  else if !u.server.running then .err .notRunning store
  else
    match env.poll u with
    | some _ => ⟨.error .notRunning, store, true, 0, 0, false⟩
    | none =>
      let u1 := { u with server := env.stopUser u }
      let status : Nat := if u1.server.stopPending then 202 else 204
      ⟨.ok status, replaceFirst store name u1, true, 1, 0, false⟩

/-- Embedding of `UserServerAPIHandler.delete` (StopServer), gated
`admin_or_self`. -/
def userServerDelete (env : Env) (caller : Option Caller) (name : String)
    (store : List UserRecord) : HResult :=
  adminOrSelf caller name store (userServerDeleteBody env name store)

/-- Embedding of `UserAdminAccessAPIHandler.post` (GrantAdminAccess),
gated `admin_only`: 403 while the `admin_access` setting is off, 404 for
an absent target, 400 for a target whose server is not running, otherwise
the server cookie is set (implicit 200). -/
def adminAccessPost (adminAccess : Bool) (caller : Option Caller)
    (name : String) (store : List UserRecord) : HResult :=
  adminOnly caller store (fun _c =>
    if !adminAccess then .err .adminAccessDisabled store
    else
      match findUser store name with
      | none => .err .notFound store
      | some u =>
        if !u.server.running then .err .notRunning store
        else ⟨.ok 200, store, false, 0, 0, true⟩)

/-! Concrete fixtures for witnesses and counterexamples. -/

/-- Server state with no spawner handle and no activity. -/
def sIdle : ServerState := ⟨false, false, false, false⟩

/-- Server state with a spawner handle and a running server. -/
def sRunning : ServerState := ⟨true, false, false, true⟩

/-- Server state with a stop in flight. -/
def sStopping : ServerState := ⟨true, false, true, false⟩

/-- A plain user with no server. -/
def alice : UserRecord := ⟨"alice", false, sIdle⟩

/-- The same user with a spawner handle and a running server. -/
def aliceRunning : UserRecord := ⟨"alice", false, sRunning⟩

/-- A non-admin caller named bob, with a matching record. -/
def bobC : Caller := ⟨"bob", false⟩

/-- The user record of bob. -/
def bobRec : UserRecord := ⟨"bob", false, sIdle⟩

/-- An admin caller. -/
def rootC : Caller := ⟨"root", true⟩

/-- Environment where spawns succeed synchronously, stops complete, the
poll reports an exited process, and the authenticator succeeds. -/
def envIdle : Env :=
  ⟨fun _ => ⟨false, false, false, false⟩,
   fun _ => ⟨true, false, false, true⟩,
   fun _ => some 0, true⟩

/-- Environment whose poll reports a live process (None). -/
def envAlive : Env :=
  ⟨fun _ => ⟨false, false, false, false⟩,
   fun _ => ⟨true, false, false, true⟩,
   fun _ => none, true⟩

/-- Environment where the authenticator's add_user raises. -/
def envAddFail : Env :=
  ⟨fun _ => ⟨false, false, false, false⟩,
   fun _ => ⟨true, false, false, true⟩,
   fun _ => some 0, false⟩

/-- Environment where a stop stays pending when the call returns. -/
def envSlowStop : Env :=
  ⟨fun u => { u.server with stopPending := true },
   fun u => { u.server with spawnPending := true },
   fun _ => none, true⟩

/-! Gate lemmas shared by the handler theorems. -/

/-- The `admin_or_self` gate denies an unauthenticated request. -/
theorem adminOrSelf_noCaller (name : String) (store : List UserRecord)
    (body : UserRecord → HResult) :
    adminOrSelf none name store body = .err .forbidden store := rfl

/-- The `admin_or_self` gate denies a caller that is neither the target
user nor an admin. -/
theorem adminOrSelf_notAuthorized (c : Caller) (name : String)
    (store : List UserRecord) (body : UserRecord → HResult)
    (h1 : c.name ≠ name) (h2 : c.admin = false) :
    adminOrSelf (some c) name store body = .err .forbidden store := by
  simp [adminOrSelf, h1, h2]

/-- The `admin_or_self` gate reports 404 when, authorization granted, the
target name resolves to no record. -/
theorem adminOrSelf_notFound (c : Caller) (name : String)
    (store : List UserRecord) (body : UserRecord → HResult)
    (h : c.name = name ∨ c.admin = true) (hf : findUser store name = none) :
    adminOrSelf (some c) name store body = .err .notFound store := by
  have hcond : (c.name = name || c.admin) = true := by
    rcases h with h | h <;> simp [h]
  simp [adminOrSelf, hcond, hf]

/-- With authorization granted and the target resolved, the wrapped
method body runs on the resolved user. -/
theorem adminOrSelf_run (c : Caller) (u : UserRecord) (name : String)
    (store : List UserRecord) (body : UserRecord → HResult)
    (h : c.name = name ∨ c.admin = true) (hf : findUser store name = some u) :
    adminOrSelf (some c) name store body = body u := by
  have hcond : (c.name = name || c.admin) = true := by
    rcases h with h | h <;> simp [h]
  simp [adminOrSelf, hcond, hf]

/-- C1.  Every SelfOrAdmin-gated operation (GetUser, SpawnServer,
StopServer) denies an unauthenticated request with Forbidden (403);
denies an authenticated caller that is neither the target user nor an
admin with Forbidden; reports NotFound (404, distinct from 403) when
authorization succeeds but the target name resolves to no record; and
otherwise runs the operation body on the resolved user. -/
theorem selfOrAdmin_gate_spec (env : Env) (caller : Option Caller)
    (name : String) (store : List UserRecord) :
    (caller = none →
      (userGet caller name store).result = .error .forbidden ∧
      (userServerPost env caller name store).result = .error .forbidden ∧
      (userServerDelete env caller name store).result = .error .forbidden) ∧
    (∀ c, caller = some c → c.name ≠ name → c.admin = false →
      (userGet caller name store).result = .error .forbidden ∧
      (userServerPost env caller name store).result = .error .forbidden ∧
      (userServerDelete env caller name store).result = .error .forbidden) ∧
    (∀ c, caller = some c → (c.name = name ∨ c.admin = true) →
      findUser store name = none →
      (userGet caller name store).result = .error .notFound ∧
      (userServerPost env caller name store).result = .error .notFound ∧
      (userServerDelete env caller name store).result = .error .notFound ∧
      statusOf .notFound = 404 ∧ statusOf .forbidden = 403) ∧
    (∀ c u, caller = some c → (c.name = name ∨ c.admin = true) →
      findUser store name = some u →
      userGet caller name store = userGetBody store u ∧
      userServerPost env caller name store = userServerPostBody env name store u ∧
      userServerDelete env caller name store = userServerDeleteBody env name store u) := by
  refine ⟨?_, ?_, ?_, ?_⟩
  · rintro rfl
    exact ⟨rfl, rfl, rfl⟩
  · rintro c rfl h1 h2
    refine ⟨?_, ?_, ?_⟩ <;>
      simp [userGet, userServerPost, userServerDelete,
        adminOrSelf_notAuthorized c name store _ h1 h2, HResult.err]
  · rintro c rfl h hf
    refine ⟨?_, ?_, ?_, rfl, rfl⟩ <;>
      simp [userGet, userServerPost, userServerDelete,
        adminOrSelf_notFound c name store _ h hf, HResult.err]
  · rintro c u rfl h hf
    exact ⟨adminOrSelf_run c u name store _ h hf,
      adminOrSelf_run c u name store _ h hf,
      adminOrSelf_run c u name store _ h hf⟩

/-- Witness for C1 at concrete inputs: no caller is denied 403; bob
acting on alice is denied 403; an admin acting on an absent name gets
404; an admin acting on alice runs the body. -/
theorem selfOrAdmin_gate_spec_witness :
    (userGet none "alice" [alice]).result = .error .forbidden ∧
    (userServerPost envIdle (some bobC) "alice" [alice]).result
      = .error .forbidden ∧
    (userServerDelete envIdle (some rootC) "ghost" [alice]).result
      = .error .notFound ∧
    userGet (some rootC) "alice" [alice] = userGetBody [alice] alice := by
  refine ⟨?_, ?_, ?_, ?_⟩
  · exact ((selfOrAdmin_gate_spec envIdle none "alice" [alice]).1 rfl).1
  · exact (((selfOrAdmin_gate_spec envIdle (some bobC) "alice" [alice]).2.1)
      bobC rfl (by decide) rfl).2.1
  · exact (((selfOrAdmin_gate_spec envIdle (some rootC) "ghost" [alice]).2.2.1)
      rootC rfl (Or.inr rfl) (by decide)).2.2.1
  · exact (((selfOrAdmin_gate_spec envIdle (some rootC) "alice" [alice]).2.2.2)
      rootC alice rfl (Or.inr rfl) (by decide)).1

/-- C2, counterexample.  CreateUser("alice") with the invalid payload
`{"admin": "yes"}` on an empty store reports the validation error with
the freshly created record already in the store: `user_from_username`
runs before `_check_user_model`, so the error is not detected before
mutation and partial state remains. -/
theorem createUser_validation_mutates_cex :
    (userPost envIdle (some rootC) "alice"
        (some (.obj [("admin", .str "yes")])) []).result
      = .error (.typeMismatch "admin") ∧
    (userPost envIdle (some rootC) "alice"
        (some (.obj [("admin", .str "yes")])) []).store
      = [freshUser "alice"] ∧
    (userPost envIdle (some rootC) "alice"
        (some (.obj [("admin", .str "yes")])) []).store ≠ [] := by
  exact ⟨rfl, rfl, by decide⟩

/-- C2, amended.  Every UpdateUser request that reports an error leaves
the store unchanged (no record created or modified); for CreateUser a
payload failing validation is rejected only after `user_from_username`
has created the new record, so the error is reported with the fresh
record (admin = false, no server) left in the store. -/
theorem validation_errors_state (env : Env) (c : Caller) (name : String)
    (data : Option JValue) (store : List UserRecord) (e : ApiError) :
    ((userPatch (some c) name data store).result = .error e →
      (userPatch (some c) name data store).store = store) ∧
    (c.admin = true → findUser store name = none →
      dataTruthy data = true →
      checkUserModel (data.getD .null) = .error e →
      (userPost env (some c) name data store).result = .error e ∧
      (userPost env (some c) name data store).store
        = store ++ [freshUser name]) := by
  constructor
  · intro h
    cases hadm : c.admin with
    | false => simp [userPatch, adminOnly, hadm, HResult.err]
    | true =>
      cases hf : findUser store name with
      | none => simp [userPatch, adminOnly, hadm, hf, HResult.err]
      | some u =>
        cases hv : checkUserModelOpt data with
        | error e' => simp [userPatch, adminOnly, hadm, hf, hv, HResult.err]
        | ok _ =>
          exfalso
          simp [userPatch, adminOnly, hadm, hf, hv] at h
  · intro hadm hf htr hv
    constructor <;>
      simp [userPost, adminOnly, hadm, hf, userFromUsername, htr, hv,
        HResult.err]

/-- Witness for the amended C2: a patch of alice with an unknown key
fails with InvalidKeys and leaves the one-record store unchanged; the
invalid create from the C2 counterexample reports TypeMismatch with
the fresh record appended. -/
theorem validation_errors_state_witness :
    ((userPatch (some rootC) "alice" (some (.obj [("x", .null)]))
        [alice]).store = [alice]) ∧
    ((userPost envIdle (some rootC) "alice"
        (some (.obj [("admin", .str "yes")])) []).store
      = [] ++ [freshUser "alice"]) := by
  constructor
  · exact (validation_errors_state envIdle rootC "alice"
      (some (.obj [("x", .null)])) [alice] .invalidKeys).1 rfl
  · exact ((validation_errors_state envIdle rootC "alice"
      (some (.obj [("admin", .str "yes")])) [] (.typeMismatch "admin")).2
      rfl rfl rfl rfl).2

/-- C4, counterexample.  A null payload is not a key-value mapping, and
the validator indeed rejects it with InvalidPayload — but CreateUser
never runs the validator on it (`if data:` is false for None/null), so
CreateUser("alice", null) succeeds with 201 instead of failing
InvalidPayload. -/
theorem createUser_null_payload_cex :
    (userPost envIdle (some rootC) "alice" (some .null) []).result
      = .ok 201 ∧
    checkUserModel .null = .error .invalidPayload := ⟨rfl, rfl⟩

/-- C4, amended.  The validator rejects non-mappings with InvalidPayload,
unknown keys with InvalidKeys, wrongly-typed values with TypeMismatch,
and passes otherwise (it is a pure function).  UpdateUser validates every
payload; CreateUser validates only truthy payloads — a falsy payload
(null, false, 0, empty string/list/object) skips validation and the
create proceeds. -/
theorem payload_validation_amended :
    (∀ v : JValue, (∀ fs, v ≠ .obj fs) →
      checkUserModel v = .error .invalidPayload) ∧
    (∀ fs : List (String × JValue), (∃ kv ∈ fs, allowedKey kv.1 = false) →
      checkUserModel (.obj fs) = .error .invalidKeys) ∧
    (∀ fs : List (String × JValue), (∀ kv ∈ fs, allowedKey kv.1 = true) →
      (∃ kv ∈ fs, fieldTypeOk kv = false) →
      ∃ kv ∈ fs, fieldTypeOk kv = false ∧
        checkUserModel (.obj fs) = .error (.typeMismatch kv.1)) ∧
    (∀ fs : List (String × JValue), (∀ kv ∈ fs, allowedKey kv.1 = true) →
      (∀ kv ∈ fs, fieldTypeOk kv = true) →
      checkUserModel (.obj fs) = .ok ()) ∧
    (∀ (c : Caller) (name : String) (data : Option JValue)
      (store : List UserRecord) (u : UserRecord) (e : ApiError),
      c.admin = true → findUser store name = some u →
      checkUserModelOpt data = .error e →
      userPatch (some c) name data store = .err e store) ∧
    (∀ (env : Env) (c : Caller) (name : String) (data : Option JValue)
      (store : List UserRecord) (e : ApiError),
      c.admin = true → findUser store name = none →
      dataTruthy data = true → checkUserModel (data.getD .null) = .error e →
      (userPost env (some c) name data store).result = .error e) ∧
    (∀ (env : Env) (c : Caller) (name : String) (data : Option JValue)
      (store : List UserRecord),
      c.admin = true → findUser store name = none →
      dataTruthy data = false → env.authAddOk = true →
      (userPost env (some c) name data store).result = .ok 201) := by
  refine ⟨?_, ?_, ?_, ?_, ?_, ?_, ?_⟩
  · intro v hv
    cases v with
    | obj fs => exact absurd rfl (hv fs)
    | null => rfl
    | bool b => rfl
    | str s => rfl
    | num n => rfl
    | arr xs => rfl
  · intro fs hex
    obtain ⟨kv, hm, hk⟩ := hex
    cases hall : fs.all (fun kv => allowedKey kv.1) with
    | false => simp [checkUserModel, hall]
    | true => exact absurd (List.all_eq_true.1 hall kv hm) (by simp [hk])
  · intro fs hallk hex
    obtain ⟨kv, hm, hk⟩ := hex
    have hsome : (fs.find? (fun kv => !fieldTypeOk kv)).isSome := by
      rw [List.find?_isSome]
      exact ⟨kv, hm, by simp [hk]⟩
    obtain ⟨kv0, h0⟩ := Option.isSome_iff_exists.1 hsome
    have hmem0 := List.mem_of_find?_eq_some h0
    have hp0 := List.find?_some h0
    have hall : fs.all (fun kv => allowedKey kv.1) = true :=
      List.all_eq_true.2 hallk
    refine ⟨kv0, hmem0, by simpa using hp0, ?_⟩
    simp [checkUserModel, hall, h0]
  · intro fs hallk htyp
    have hall : fs.all (fun kv => allowedKey kv.1) = true :=
      List.all_eq_true.2 hallk
    have hnone : fs.find? (fun kv => !fieldTypeOk kv) = none :=
      List.find?_eq_none.2 (by intro kv hm; simp [htyp kv hm])
    simp [checkUserModel, hall, hnone]
  · intro c name data store u e hadm hf he
    simp [userPatch, adminOnly, hadm, hf, he]
  · intro env c name data store e hadm hf htr hv
    simp [userPost, adminOnly, hadm, hf, userFromUsername, htr, hv,
      HResult.err]
  · intro env c name data store hadm hf htr hok
    simp [userPost, adminOnly, hadm, hf, userFromUsername, htr, hok]

/-- Witness for the amended C4 at concrete payloads: a list payload is
InvalidPayload, an unknown key is InvalidKeys, a string-valued `admin` is
TypeMismatch, a well-typed payload passes, UpdateUser rejects a null
body, CreateUser rejects a truthy list body, and CreateUser accepts a
falsy null body. -/
theorem payload_validation_amended_witness :
    checkUserModel (.arr []) = .error .invalidPayload ∧
    checkUserModel (.obj [("x", .null)]) = .error .invalidKeys ∧
    (∃ kv ∈ [("admin", JValue.str "y")], fieldTypeOk kv = false ∧
      checkUserModel (.obj [("admin", JValue.str "y")])
        = .error (.typeMismatch kv.1)) ∧
    checkUserModel (.obj [("name", .str "a"), ("admin", .bool true)])
      = .ok () ∧
    userPatch (some rootC) "alice" none [alice]
      = .err .invalidPayload [alice] ∧
    (userPost envIdle (some rootC) "carol" (some (.arr [.null])) []).result
      = .error .invalidPayload ∧
    (userPost envIdle (some rootC) "dave" (some (.obj [])) []).result
      = .ok 201 := by
  refine ⟨?_, ?_, ?_, ?_, ?_, ?_, ?_⟩
  · exact payload_validation_amended.1 (.arr [])
      (by intro fs h; exact JValue.noConfusion h)
  · exact payload_validation_amended.2.1 [("x", .null)]
      ⟨("x", .null), List.mem_singleton.2 rfl, by decide⟩
  · exact payload_validation_amended.2.2.1 [("admin", JValue.str "y")]
      (by intro kv hm; rw [List.mem_singleton.1 hm]; decide)
      ⟨("admin", JValue.str "y"), List.mem_singleton.2 rfl, rfl⟩
  · exact payload_validation_amended.2.2.2.1
      [("name", .str "a"), ("admin", .bool true)] (by decide) (by decide)
  · exact payload_validation_amended.2.2.2.2.1 rootC "alice" none [alice]
      alice .invalidPayload rfl rfl rfl
  · exact payload_validation_amended.2.2.2.2.2.1 envIdle rootC "carol"
      (some (.arr [.null])) [] .invalidPayload rfl rfl rfl rfl
  · exact payload_validation_amended.2.2.2.2.2.2 envIdle rootC "dave"
      (some (.obj [])) [] rfl rfl rfl rfl

/-- The record resolved by `find_user` bears the requested name. -/
theorem findUser_name {store : List UserRecord} {n : String}
    {u : UserRecord} (h : findUser store n = some u) : u.name = n := by
  have := List.find?_some h
  simpa using this

/-- A `setattr` for a key other than `name` preserves the name. -/
theorem applyField_name (u : UserRecord) (kv : String × JValue)
    (h : kv.1 ≠ "name") : (applyField u kv).name = u.name := by
  obtain ⟨k, v⟩ := kv
  simp only [applyField]
  rw [if_neg h]
  by_cases h2 : k = "admin"
  · rw [if_pos h2]; cases v <;> rfl
  · rw [if_neg h2]

/-- The patch loop preserves the name when no field is keyed `name`. -/
theorem applyFields_name (fs : List (String × JValue)) :
    ∀ u : UserRecord, (∀ kv ∈ fs, kv.1 ≠ "name") →
    (applyFields u fs).name = u.name := by
  induction fs with
  | nil => intro u _; rfl
  | cons kv fs ih =>
    intro u h
    have hstep : (applyField u kv).name = u.name :=
      applyField_name u kv (h kv (List.mem_cons_self kv fs))
    have htail := ih (applyField u kv)
      (fun kv' hm => h kv' (List.mem_cons_of_mem kv hm))
    calc (applyFields u (kv :: fs)).name
        = (applyFields (applyField u kv) fs).name := rfl
      _ = (applyField u kv).name := htail
      _ = u.name := hstep

/-- Replacing a record by one of the searched-for name preserves the
stored name sequence. -/
theorem map_name_replaceFirst (store : List UserRecord) (n : String)
    (u' : UserRecord) (h : u'.name = n) :
    (replaceFirst store n u').map UserRecord.name
      = store.map UserRecord.name := by
  induction store with
  | nil => rfl
  | cons r rs ih =>
    by_cases hr : r.name = n
    · simp [replaceFirst, hr, h]
    · simp [replaceFirst, hr, ih]

/-- When the payload has no `name` key, none of its fields is keyed
`name`. -/
theorem objFields_no_name (data : Option JValue)
    (h : hasKey (data.getD .null) "name" = false) :
    ∀ kv ∈ objFields data, kv.1 ≠ "name" := by
  cases data with
  | none => intro kv hm; simp [objFields] at hm
  | some v =>
    cases v with
    | obj fs =>
      intro kv hm heq
      have hsome : (fs.find? (fun kv => kv.1 = "name")).isSome := by
        rw [List.find?_isSome]
        exact ⟨kv, hm, by simp [heq]⟩
      simp [hasKey, objGet] at h
      rw [Option.isSome_iff_exists] at hsome
      obtain ⟨kv0, h0⟩ := hsome
      have hmem : kv0 ∈ fs := List.mem_of_find?_eq_some h0
      have hname : kv0.1 = "name" := by simpa using List.find?_some h0
      exact h kv0.1 kv0.2 (by simpa using hmem) hname
    | null => intro kv hm; simp [objFields] at hm
    | bool b => intro kv hm; simp [objFields] at hm
    | str s => intro kv hm; simp [objFields] at hm
    | num n => intro kv hm; simp [objFields] at hm
    | arr xs => intro kv hm; simp [objFields] at hm

/-- C3, counterexample.  UpdateUser("alice", {"name": "bob"}) passes
validation (`name` is an allowed string field), succeeds with 200, and
renames the record: afterwards no record named "alice" exists and the
store holds one named "bob" — the `name` field is not immutable. -/
theorem name_immutable_cex :
    (userPatch (some rootC) "alice" (some (.obj [("name", .str "bob")]))
        [alice]).result = .ok 200 ∧
    (userPatch (some rootC) "alice" (some (.obj [("name", .str "bob")]))
        [alice]).store = [⟨"bob", false, sIdle⟩] ∧
    findUser (userPatch (some rootC) "alice"
        (some (.obj [("name", .str "bob")])) [alice]).store "alice"
      = none := ⟨rfl, rfl, rfl⟩

/-- C3, amended.  The `name` field is mutable through UpdateUser (a
payload carrying a `name` key renames the record, as the counterexample
shows); for every UpdateUser call whose payload has no `name` key the
stored names are unchanged, and SpawnServer and StopServer never change
the name of any record. -/
theorem name_preservation_amended (env : Env) (caller : Option Caller)
    (name : String) (data : Option JValue) (store : List UserRecord) :
    (hasKey (data.getD .null) "name" = false →
      (userPatch caller name data store).store.map UserRecord.name
        = store.map UserRecord.name) ∧
    ((userServerPost env caller name store).store.map UserRecord.name
      = store.map UserRecord.name) ∧
    ((userServerDelete env caller name store).store.map UserRecord.name
      = store.map UserRecord.name) := by
  refine ⟨?_, ?_, ?_⟩
  · intro hnk
    cases caller with
    | none => rfl
    | some c =>
      cases hadm : c.admin with
      | false => simp [userPatch, adminOnly, hadm, HResult.err]
      | true =>
        cases hf : findUser store name with
        | none => simp [userPatch, adminOnly, hadm, hf, HResult.err]
        | some u =>
          cases hv : checkUserModelOpt data with
          | error e => simp [userPatch, adminOnly, hadm, hf, hv, HResult.err]
          | ok _ =>
            have hun : (applyFields u (objFields data)).name = name := by
              rw [applyFields_name (objFields data) u
                (objFields_no_name data hnk)]
              exact findUser_name hf
            simp [userPatch, adminOnly, hadm, hf, hv,
              map_name_replaceFirst store name _ hun]
  · cases caller with
    | none => rfl
    | some c =>
      by_cases hauth : c.name = name ∨ c.admin = true
      · cases hf : findUser store name with
        | none =>
          rw [userServerPost, adminOrSelf_notFound c name store _ hauth hf]
          rfl
        | some u =>
          rw [userServerPost, adminOrSelf_run c u name store _ hauth hf]
          have hun : u.name = name := findUser_name hf
          have hrp := map_name_replaceFirst store name
            { u with server := env.spawnUser u } (by simpa using hun)
          cases hs : u.server.hasSpawner with
          | false => simp [userServerPostBody, hs, hrp]
          | true =>
            cases hp : env.poll u with
            | none => simp [userServerPostBody, hs, hp]
            | some k => simp [userServerPostBody, hs, hp, hrp]
      · push_neg at hauth
        rw [userServerPost, adminOrSelf_notAuthorized c name store _
          hauth.1 (by simpa using hauth.2)]
        rfl
  · cases caller with
    | none => rfl
    | some c =>
      by_cases hauth : c.name = name ∨ c.admin = true
      · cases hf : findUser store name with
        | none =>
          rw [userServerDelete, adminOrSelf_notFound c name store _ hauth hf]
          rfl
        | some u =>
          rw [userServerDelete, adminOrSelf_run c u name store _ hauth hf]
          have hun : u.name = name := findUser_name hf
          have hrp := map_name_replaceFirst store name
            { u with server := env.stopUser u } (by simpa using hun)
          cases hsp : u.server.stopPending with
          | true => simp [userServerDeleteBody, hsp]
          | false =>
            cases hr : u.server.running with
            | false => simp [userServerDeleteBody, hsp, hr, HResult.err]
            | true =>
              cases hp : env.poll u with
              | some k => simp [userServerDeleteBody, hsp, hr, hp]
              | none => simp [userServerDeleteBody, hsp, hr, hp, hrp]
      · push_neg at hauth
        rw [userServerDelete, adminOrSelf_notAuthorized c name store _
          hauth.1 (by simpa using hauth.2)]
        rfl

/-- Witness for the amended C3 at concrete inputs: an admin-flag patch,
a spawn and a stop on alice all leave the stored name sequence
["alice"]. -/
theorem name_preservation_amended_witness :
    (userPatch (some rootC) "alice" (some (.obj [("admin", .bool true)]))
        [alice]).store.map UserRecord.name = [alice].map UserRecord.name ∧
    (userServerPost envIdle (some rootC) "alice"
        [alice]).store.map UserRecord.name = [alice].map UserRecord.name ∧
    (userServerDelete envIdle (some rootC) "alice"
        [aliceRunning]).store.map UserRecord.name
      = [aliceRunning].map UserRecord.name := by
  refine ⟨?_, ?_, ?_⟩
  · exact (name_preservation_amended envIdle (some rootC) "alice"
      (some (.obj [("admin", .bool true)])) [alice]).1 rfl
  · exact (name_preservation_amended envIdle (some rootC) "alice"
      none [alice]).2.1
  · exact (name_preservation_amended envIdle (some rootC) "alice"
      none [aliceRunning]).2.2

/-- The user record of the admin root. -/
def rootRec : UserRecord := ⟨"root", true, sIdle⟩

/-- Alice with a stop already in flight. -/
def aliceStopping : UserRecord := ⟨"alice", false, sStopping⟩

/-- Name resolution fails exactly when no record bears the name. -/
theorem findUser_none_iff {store : List UserRecord} {n : String} :
    findUser store n = none ↔ ∀ r ∈ store, r.name ≠ n := by
  simp [findUser, List.find?_eq_none]

/-- Removing the searched name from a store that lacks it except for a
final appended record drops exactly that record. -/
theorem removeFirst_append_fresh (store : List UserRecord) (n : String)
    (x : UserRecord) (h : ∀ r ∈ store, r.name ≠ n) (hx : x.name = n) :
    removeFirst (store ++ [x]) n = store := by
  induction store with
  | nil => simp [removeFirst, hx]
  | cons r rs ih =>
    have hr : r.name ≠ n := h r (List.mem_cons_self r rs)
    have ht := ih (fun r' hm => h r' (List.mem_cons_of_mem r hm))
    simp [removeFirst, hr, ht]

/-- Replacing the searched name in such a store rewrites exactly the
appended record. -/
theorem replaceFirst_append_fresh (store : List UserRecord) (n : String)
    (x u' : UserRecord) (h : ∀ r ∈ store, r.name ≠ n) (hx : x.name = n) :
    replaceFirst (store ++ [x]) n u' = store ++ [u'] := by
  induction store with
  | nil => simp [replaceFirst, hx]
  | cons r rs ih =>
    have hr : r.name ≠ n := h r (List.mem_cons_self r rs)
    have ht := ih (fun r' hm => h r' (List.mem_cons_of_mem r hm))
    simp [replaceFirst, hr, ht]

/-- After replacing the resolved record by one of the same name, the
name resolves to the replacement (the target was not deleted). -/
theorem findUser_replaceFirst {store : List UserRecord} {n : String}
    {u u' : UserRecord} (hf : findUser store n = some u)
    (h : u'.name = n) :
    findUser (replaceFirst store n u') n = some u' := by
  induction store with
  | nil => simp [findUser] at hf
  | cons r rs ih =>
    by_cases hr : r.name = n
    · simp [replaceFirst, hr, findUser, List.find?, h]
    · have hf' : findUser rs n = some u := by
        simpa [findUser, List.find?, hr] using hf
      have := ih hf'
      simpa [replaceFirst, hr, findUser, List.find?] using this

/-- C5, counterexample.  A non-admin deleting their own account is denied
Forbidden by the `admin_only` gate, not SelfDeletion: the clause
"regardless of privilege" fails for non-admin callers. -/
theorem deleteUser_self_nonadmin_cex :
    (userDelete envIdle (some bobC) "bob" [bobRec]).result
      = .error .forbidden ∧
    ApiError.forbidden ≠ ApiError.selfDeletion := ⟨rfl, by decide⟩

/-- C5, amended.  DeleteUser is admin-gated: unauthenticated and
non-admin callers (including self-deletes) are denied Forbidden.  For an
admin caller with the target resolved: a target named like the caller
fails SelfDeletion; a StopPending target fails ServerBusy with no stop
issued; a target with a spawner handle gets one synchronous stop and a
re-check — still StopPending fails ServerBusy without deleting the
record, otherwise the record is removed with 204; a target with no
spawner is removed directly with 204 and no stop issued. -/
theorem deleteUser_amended (env : Env) (c : Caller) (name : String)
    (store : List UserRecord) (u : UserRecord) :
    ((userDelete env none name store).result = .error .forbidden) ∧
    (c.admin = false →
      (userDelete env (some c) name store).result = .error .forbidden) ∧
    (c.admin = true → findUser store name = some u →
      (u.name = c.name →
        userDelete env (some c) name store = .err .selfDeletion store) ∧
      (u.name ≠ c.name → u.server.stopPending = true →
        userDelete env (some c) name store = .err .serverBusy store) ∧
      (u.name ≠ c.name → u.server.stopPending = false →
        u.server.hasSpawner = true →
        ((env.stopUser u).stopPending = true →
          (userDelete env (some c) name store).result = .error .serverBusy ∧
          (userDelete env (some c) name store).stopCalls = 1 ∧
          findUser (userDelete env (some c) name store).store name
            = some { u with server := env.stopUser u }) ∧
        ((env.stopUser u).stopPending = false →
          (userDelete env (some c) name store).result = .ok 204 ∧
          (userDelete env (some c) name store).stopCalls = 1 ∧
          (userDelete env (some c) name store).store
            = removeFirst
                (replaceFirst store name { u with server := env.stopUser u })
                name)) ∧
      (u.name ≠ c.name → u.server.stopPending = false →
        u.server.hasSpawner = false →
        userDelete env (some c) name store
          = ⟨.ok 204, removeFirst store name, false, 0, 0, false⟩)) := by
  refine ⟨rfl, ?_, ?_⟩
  · intro hadm
    simp [userDelete, adminOnly, hadm, HResult.err]
  · intro hadm hf
    refine ⟨?_, ?_, ?_, ?_⟩
    · intro hself
      simp [userDelete, adminOnly, hadm, hf, hself]
    · intro hne hsp
      simp [userDelete, adminOnly, hadm, hf, hne, hsp]
    · intro hne hsp hspawn
      constructor
      · intro hstuck
        have hun : ({ u with server := env.stopUser u } : UserRecord).name
            = name := by
          simpa using findUser_name hf
        have hfr := findUser_replaceFirst hf hun
        refine ⟨?_, ?_, ?_⟩ <;>
          simp [userDelete, adminOnly, hadm, hf, hne, hsp, hspawn, hstuck,
            hfr]
      · intro hdone
        refine ⟨?_, ?_, ?_⟩ <;>
          simp [userDelete, adminOnly, hadm, hf, hne, hsp, hspawn, hdone]
    · intro hne hsp hspawn
      simp [userDelete, adminOnly, hadm, hf, hne, hsp, hspawn]

/-- Witness for the amended C5 at concrete inputs: an admin self-delete
fails SelfDeletion; deleting a StopPending alice fails ServerBusy; with a
slow stop the delete stops once, fails ServerBusy and leaves alice; with
a completing stop the delete stops once and removes alice with 204; a
non-admin self-delete is denied Forbidden. -/
theorem deleteUser_amended_witness :
    userDelete envIdle (some rootC) "root" [rootRec]
      = .err .selfDeletion [rootRec] ∧
    userDelete envIdle (some rootC) "alice" [aliceStopping]
      = .err .serverBusy [aliceStopping] ∧
    ((userDelete envSlowStop (some rootC) "alice" [aliceRunning]).result
        = .error .serverBusy ∧
      (userDelete envSlowStop (some rootC) "alice" [aliceRunning]).stopCalls
        = 1 ∧
      findUser (userDelete envSlowStop (some rootC) "alice"
          [aliceRunning]).store "alice"
        = some { aliceRunning with server := envSlowStop.stopUser aliceRunning }) ∧
    ((userDelete envIdle (some rootC) "alice" [aliceRunning]).result
        = .ok 204 ∧
      (userDelete envIdle (some rootC) "alice" [aliceRunning]).stopCalls
        = 1) ∧
    (userDelete envIdle (some bobC) "bob" [bobRec]).result
      = .error .forbidden := by
  refine ⟨?_, ?_, ?_, ?_, ?_⟩
  · exact (((deleteUser_amended envIdle rootC "root" [rootRec]
      rootRec).2.2) rfl rfl).1 rfl
  · exact (((deleteUser_amended envIdle rootC "alice" [aliceStopping]
      aliceStopping).2.2) rfl rfl).2.1 (by decide) rfl
  · exact ((((deleteUser_amended envSlowStop rootC "alice" [aliceRunning]
      aliceRunning).2.2) rfl rfl).2.2.1 (by decide) rfl rfl).1 rfl
  · have h := ((((deleteUser_amended envIdle rootC "alice" [aliceRunning]
      aliceRunning).2.2) rfl rfl).2.2.1 (by decide) rfl rfl).2 rfl
    exact ⟨h.1, h.2.1⟩
  · exact (deleteUser_amended envIdle bobC "bob" [bobRec] bobRec).2.1 rfl

/-- C6.  SpawnServer on an authorized request with the target resolved:
with an existing spawner handle the handler polls it — a null poll
(process alive) fails Conflict "already running" with no spawn issued
and the store unchanged, a non-null poll (process exited) permits a
fresh spawn; whenever a spawn is performed the result is Accepted (202)
if the user is still SpawnPending when the call returns, and Created
(201) if the spawn completed synchronously into Running. -/
theorem spawnServer_spec (env : Env) (c : Caller) (name : String)
    (store : List UserRecord) (u : UserRecord)
    (hauth : c.name = name ∨ c.admin = true)
    (hf : findUser store name = some u) :
    (u.server.hasSpawner = true → env.poll u = none →
      (userServerPost env (some c) name store).result
        = .error .alreadyRunning ∧
      (userServerPost env (some c) name store).spawnCalls = 0 ∧
      (userServerPost env (some c) name store).store = store ∧
      (userServerPost env (some c) name store).polled = true) ∧
    (u.server.hasSpawner = true → ∀ k, env.poll u = some k →
      (userServerPost env (some c) name store).spawnCalls = 1 ∧
      (userServerPost env (some c) name store).polled = true ∧
      ((env.spawnUser u).spawnPending = true →
        (userServerPost env (some c) name store).result = .ok 202) ∧
      ((env.spawnUser u).running = true →
        (env.spawnUser u).spawnPending = false →
        (userServerPost env (some c) name store).result = .ok 201)) ∧
    (u.server.hasSpawner = false →
      (userServerPost env (some c) name store).spawnCalls = 1 ∧
      ((env.spawnUser u).spawnPending = true →
        (userServerPost env (some c) name store).result = .ok 202) ∧
      ((env.spawnUser u).running = true →
        (env.spawnUser u).spawnPending = false →
        (userServerPost env (some c) name store).result = .ok 201)) := by
  rw [userServerPost, adminOrSelf_run c u name store _ hauth hf]
  refine ⟨?_, ?_, ?_⟩
  · intro hs hp
    simp [userServerPostBody, hs, hp]
  · intro hs k hp
    refine ⟨?_, ?_, ?_, ?_⟩
    · simp [userServerPostBody, hs, hp]
    · simp [userServerPostBody, hs, hp]
    · intro hpend; simp [userServerPostBody, hs, hp, hpend]
    · intro _ hpend; simp [userServerPostBody, hs, hp, hpend]
  · intro hs
    refine ⟨?_, ?_, ?_⟩
    · simp [userServerPostBody, hs]
    · intro hpend; simp [userServerPostBody, hs, hpend]
    · intro _ hpend; simp [userServerPostBody, hs, hpend]

/-- Witness for C6: alice spawning her own server while the poll says
the process is alive gets "already running" with no spawn; with the poll
reporting an exit the spawn runs and completes synchronously into
Running, answering 201. -/
theorem spawnServer_spec_witness :
    (userServerPost envAlive (some ⟨"alice", false⟩) "alice"
        [aliceRunning]).result = .error .alreadyRunning ∧
    (userServerPost envAlive (some ⟨"alice", false⟩) "alice"
        [aliceRunning]).spawnCalls = 0 ∧
    (userServerPost envIdle (some ⟨"alice", false⟩) "alice"
        [aliceRunning]).result = .ok 201 := by
  refine ⟨?_, ?_, ?_⟩
  · exact ((spawnServer_spec envAlive ⟨"alice", false⟩ "alice"
      [aliceRunning] aliceRunning (Or.inl rfl) rfl).1 rfl rfl).1
  · exact ((spawnServer_spec envAlive ⟨"alice", false⟩ "alice"
      [aliceRunning] aliceRunning (Or.inl rfl) rfl).1 rfl rfl).2.1
  · exact ((spawnServer_spec envIdle ⟨"alice", false⟩ "alice"
      [aliceRunning] aliceRunning (Or.inl rfl) rfl).2.1 rfl 0 rfl).2.2.2
      rfl rfl

/-- C7, counterexample.  With a spawner handle present and poll()
returning null, the process is alive and SpawnServer fails Conflict —
the reading of "poll() is null-or-absent" as "no live process",
under which this request would be accepted, is backwards. -/
theorem spawnServer_poll_null_cex :
    (userServerPost envAlive (some rootC) "alice"
        [aliceRunning]).result = .error .alreadyRunning ∧
    (userServerPost envAlive (some rootC) "alice"
        [aliceRunning]).spawnCalls = 0 ∧
    envAlive.poll aliceRunning = none := ⟨rfl, rfl, rfl⟩

/-- C7, amended.  SpawnServer is accepted only if the spawner handle is
absent or poll() is non-null (process already exited) at check time; a
null poll with an existing handle means a live process and fails
Conflict. -/
theorem spawnServer_poll_gate_amended (env : Env) (c : Caller)
    (name : String) (store : List UserRecord) (u : UserRecord)
    (hauth : c.name = name ∨ c.admin = true)
    (hf : findUser store name = some u) :
    (∀ n : Nat, (userServerPost env (some c) name store).result = .ok n →
      u.server.hasSpawner = false ∨ ∃ k, env.poll u = some k) ∧
    (u.server.hasSpawner = true → env.poll u = none →
      (userServerPost env (some c) name store).result
        = .error .alreadyRunning ∧
      (userServerPost env (some c) name store).spawnCalls = 0) := by
  rw [userServerPost, adminOrSelf_run c u name store _ hauth hf]
  constructor
  · intro n hok
    cases hs : u.server.hasSpawner with
    | false => exact Or.inl rfl
    | true =>
      cases hp : env.poll u with
      | none => simp [userServerPostBody, hs, hp] at hok
      | some k => exact Or.inr ⟨k, rfl⟩
  · intro hs hp
    simp [userServerPostBody, hs, hp]

/-- Witness for the amended C7: a successful concrete spawn (201) has a
non-null poll outcome, and the live-process poll yields Conflict with no
spawn issued. -/
theorem spawnServer_poll_gate_amended_witness :
    (aliceRunning.server.hasSpawner = false ∨
      ∃ k, envIdle.poll aliceRunning = some k) ∧
    (userServerPost envAlive (some rootC) "alice"
        [aliceRunning]).result = .error .alreadyRunning := by
  constructor
  · exact (spawnServer_poll_gate_amended envIdle rootC "alice"
      [aliceRunning] aliceRunning (Or.inr rfl) rfl).1 201 rfl
  · exact ((spawnServer_poll_gate_amended envAlive rootC "alice"
      [aliceRunning] aliceRunning (Or.inr rfl) rfl).2 rfl rfl).1

/-- C8.  StopServer on an authorized request with the target resolved:
an already StopPending target answers Accepted (202) with no poll and no
second stop and the store unchanged; a target not running fails
NotRunning; a non-null poll (process already exited) fails NotRunning
with no stop issued; otherwise exactly one stop is issued, answering
Accepted (202) while still StopPending and NoContent (204) when the stop
completed synchronously. -/
theorem stopServer_spec (env : Env) (c : Caller) (name : String)
    (store : List UserRecord) (u : UserRecord)
    (hauth : c.name = name ∨ c.admin = true)
    (hf : findUser store name = some u) :
    (u.server.stopPending = true →
      (userServerDelete env (some c) name store).result = .ok 202 ∧
      (userServerDelete env (some c) name store).polled = false ∧
      (userServerDelete env (some c) name store).stopCalls = 0 ∧
      (userServerDelete env (some c) name store).store = store) ∧
    (u.server.stopPending = false → u.server.running = false →
      (userServerDelete env (some c) name store).result
        = .error .notRunning ∧
      (userServerDelete env (some c) name store).stopCalls = 0) ∧
    (u.server.stopPending = false → u.server.running = true →
      ∀ k, env.poll u = some k →
      (userServerDelete env (some c) name store).result
        = .error .notRunning ∧
      (userServerDelete env (some c) name store).stopCalls = 0 ∧
      (userServerDelete env (some c) name store).polled = true) ∧
    (u.server.stopPending = false → u.server.running = true →
      env.poll u = none →
      (userServerDelete env (some c) name store).stopCalls = 1 ∧
      ((env.stopUser u).stopPending = true →
        (userServerDelete env (some c) name store).result = .ok 202) ∧
      ((env.stopUser u).stopPending = false →
        (userServerDelete env (some c) name store).result = .ok 204)) := by
  rw [userServerDelete, adminOrSelf_run c u name store _ hauth hf]
  refine ⟨?_, ?_, ?_, ?_⟩
  · intro hsp
    simp [userServerDeleteBody, hsp]
  · intro hsp hr
    simp [userServerDeleteBody, hsp, hr, HResult.err]
  · intro hsp hr k hp
    refine ⟨?_, ?_, ?_⟩ <;> simp [userServerDeleteBody, hsp, hr, hp]
  · intro hsp hr hp
    refine ⟨?_, ?_, ?_⟩
    · simp [userServerDeleteBody, hsp, hr, hp]
    · intro hstill; simp [userServerDeleteBody, hsp, hr, hp, hstill]
    · intro hdone; simp [userServerDeleteBody, hsp, hr, hp, hdone]

/-- Witness for C8: stopping an already-stopping alice answers 202 with
no poll and no stop; stopping a no-server alice fails NotRunning;
stopping a running alice whose poll reports an exit fails NotRunning;
stopping a running alice with a live process issues one stop and, the
stop completing synchronously, answers 204. -/
theorem stopServer_spec_witness :
    (userServerDelete envIdle (some rootC) "alice"
        [aliceStopping]).result = .ok 202 ∧
    (userServerDelete envIdle (some rootC) "alice"
        [aliceStopping]).polled = false ∧
    (userServerDelete envIdle (some rootC) "alice"
        [aliceStopping]).stopCalls = 0 ∧
    (userServerDelete envIdle (some rootC) "alice" [alice]).result
      = .error .notRunning ∧
    (userServerDelete envIdle (some rootC) "alice"
        [aliceRunning]).result = .error .notRunning ∧
    (userServerDelete envAlive (some rootC) "alice"
        [aliceRunning]).result = .ok 204 ∧
    (userServerDelete envAlive (some rootC) "alice"
        [aliceRunning]).stopCalls = 1 := by
  refine ⟨?_, ?_, ?_, ?_, ?_, ?_, ?_⟩
  · exact ((stopServer_spec envIdle rootC "alice" [aliceStopping]
      aliceStopping (Or.inr rfl) rfl).1 rfl).1
  · exact ((stopServer_spec envIdle rootC "alice" [aliceStopping]
      aliceStopping (Or.inr rfl) rfl).1 rfl).2.1
  · exact ((stopServer_spec envIdle rootC "alice" [aliceStopping]
      aliceStopping (Or.inr rfl) rfl).1 rfl).2.2.1
  · exact ((stopServer_spec envIdle rootC "alice" [alice]
      alice (Or.inr rfl) rfl).2.1 rfl rfl).1
  · exact ((stopServer_spec envIdle rootC "alice" [aliceRunning]
      aliceRunning (Or.inr rfl) rfl).2.2.1 rfl rfl 0 rfl).1
  · exact ((stopServer_spec envAlive rootC "alice" [aliceRunning]
      aliceRunning (Or.inr rfl) rfl).2.2.2 rfl rfl rfl).2.2 rfl
  · exact ((stopServer_spec envAlive rootC "alice" [aliceRunning]
      aliceRunning (Or.inr rfl) rfl).2.2.2 rfl rfl rfl).1

/-- C9.  When `authenticator.add_user` fails during CreateUser, the
exception is caught (the handler returns an error value rather than
propagating), the just-created record is deleted and the deletion
committed — the store is exactly as before the request — and the
operation reports the 400-class ProvisioningFailed error. -/
theorem createUser_rollback (env : Env) (c : Caller) (name : String)
    (data : Option JValue) (store : List UserRecord)
    (hadm : c.admin = true) (hf : findUser store name = none)
    (hval : dataTruthy data = true →
      checkUserModel (data.getD .null) = .ok ())
    (hfail : env.authAddOk = false) :
    (userPost env (some c) name data store).result
      = .error .provisioningFailed ∧
    (userPost env (some c) name data store).store = store ∧
    statusOf .provisioningFailed = 400 := by
  have hnames := findUser_none_iff.1 hf
  have key : userPost env (some c) name data store
      = .err .provisioningFailed store := by
    cases htr : dataTruthy data with
    | false =>
      have hrm := removeFirst_append_fresh store name (freshUser name)
        hnames rfl
      simp [userPost, adminOnly, hadm, hf, userFromUsername, htr, hfail, hrm]
    | true =>
      cases data with
      | none => simp [dataTruthy] at htr
      | some v =>
        have hok : checkUserModel v = .ok () := hval htr
        have hrm := removeFirst_append_fresh store name (freshUser name)
          hnames rfl
        cases hk : hasKey v "admin" with
        | false =>
          simp [userPost, adminOnly, hadm, hf, userFromUsername, htr, hok,
            hk, hfail, hrm]
        | true =>
          obtain ⟨w, hw⟩ := Option.isSome_iff_exists.1
            (by simpa [hasKey] using hk)
          have hrmb : ∀ b : Bool, removeFirst
              (store ++ [{ freshUser name with admin := b }]) name
              = store :=
            fun b => removeFirst_append_fresh store name _ hnames rfl
          have hrpb : ∀ b : Bool, replaceFirst (store ++ [freshUser name])
              name { freshUser name with admin := b }
              = store ++ [{ freshUser name with admin := b }] :=
            fun b => replaceFirst_append_fresh store name _ _ hnames rfl
          cases w <;>
            simp [userPost, adminOnly, hadm, hf, userFromUsername, htr,
              hok, hk, hw, hfail, hrm, hrpb, hrmb]
  exact ⟨by rw [key]; rfl, by rw [key]; rfl, rfl⟩

/-- Witness for C9: the failing authenticator turns the admin create
of alice (with a validated admin flag) into ProvisioningFailed and the
store is rolled back to empty. -/
theorem createUser_rollback_witness :
    (userPost envAddFail (some rootC) "alice"
        (some (.obj [("admin", .bool true)])) []).result
      = .error .provisioningFailed ∧
    (userPost envAddFail (some rootC) "alice"
        (some (.obj [("admin", .bool true)])) []).store = [] := by
  have h := createUser_rollback envAddFail rootC "alice"
    (some (.obj [("admin", .bool true)])) [] rfl rfl (fun _ => rfl) rfl
  exact ⟨h.1, h.2.1⟩

/-- C10.  With the admin-access feature flag disabled, GrantAdminAccess
fails with the 403 feature error for every admin caller and every target
name — the flag is checked before target resolution, so the 403 takes
precedence over NotFound even for absent targets — and no server cookie
is set on any failure path (feature disabled, target absent, target not
running). -/
theorem grantAdminAccess_spec (flag : Bool) (c : Caller) (name : String)
    (store : List UserRecord) (hadm : c.admin = true) :
    (flag = false →
      adminAccessPost flag (some c) name store
        = .err .adminAccessDisabled store ∧
      statusOf .adminAccessDisabled = 403 ∧
      ApiError.adminAccessDisabled ≠ ApiError.notFound ∧
      (adminAccessPost flag (some c) name store).cookieSet = false) ∧
    (flag = true → findUser store name = none →
      adminAccessPost flag (some c) name store = .err .notFound store ∧
      (adminAccessPost flag (some c) name store).cookieSet = false) ∧
    (∀ u, flag = true → findUser store name = some u →
      u.server.running = false →
      adminAccessPost flag (some c) name store = .err .notRunning store ∧
      (adminAccessPost flag (some c) name store).cookieSet = false) := by
  refine ⟨?_, ?_, ?_⟩
  · rintro rfl
    refine ⟨?_, rfl, by decide, ?_⟩ <;>
      simp [adminAccessPost, adminOnly, hadm, HResult.err]
  · rintro rfl hf
    constructor <;> simp [adminAccessPost, adminOnly, hadm, hf, HResult.err]
  · rintro u rfl hf hr
    constructor <;>
      simp [adminAccessPost, adminOnly, hadm, hf, hr, HResult.err]

/-- Witness for C10: with the flag off an admin is denied 403 even for
the absent target "ghost" and no cookie is set; with the flag on the
absent target gets 404 and the non-running alice gets the 400 error,
neither setting a cookie. -/
theorem grantAdminAccess_spec_witness :
    adminAccessPost false (some rootC) "ghost" []
      = .err .adminAccessDisabled [] ∧
    (adminAccessPost false (some rootC) "ghost" []).cookieSet = false ∧
    adminAccessPost true (some rootC) "ghost" [] = .err .notFound [] ∧
    adminAccessPost true (some rootC) "alice" [alice]
      = .err .notRunning [alice] ∧
    (adminAccessPost true (some rootC) "alice" [alice]).cookieSet
      = false := by
  refine ⟨?_, ?_, ?_, ?_, ?_⟩
  · exact ((grantAdminAccess_spec false rootC "ghost" [] rfl).1 rfl).1
  · exact ((grantAdminAccess_spec false rootC "ghost" [] rfl).1 rfl).2.2.2
  · exact ((grantAdminAccess_spec true rootC "ghost" [] rfl).2.1 rfl rfl).1
  · exact ((grantAdminAccess_spec true rootC "alice" [alice] rfl).2.2
      alice rfl rfl rfl).1
  · exact ((grantAdminAccess_spec true rootC "alice" [alice] rfl).2.2
      alice rfl rfl rfl).2

end JHub
